import Mathlib

/-!
Verification development for the overcast-opml-parser repository
(`src/overcast_opml_parser/__main__.py`).

The Python module is shallowly embedded: attribute values are lists of
characters (`Str`), XML outline nodes are a tree of attribute lists, the
pydantic record constructors become fallible functions into `Except`, and
`load_file` / `cli` are translated loop by loop, with a heap of `Feed`
objects so that Python object identity (the `feed_object` variable and the
references stored in `retval.feeds`) is represented faithfully.
-/

namespace Overcast

/-- Attribute values: Python strings, embedded as lists of characters. -/
abbrev Str := List Char

/-- Convenience conversion from a Lean string literal. -/
def chars (s : String) : Str := s.data

/-- An XML node's attribute mapping, in document order (lxml preserves it). -/
abbrev AttrList := List (String × Str)

/-- First-match lookup in an attribute mapping (XML attribute names are
unique per node, so this is the Python `dict` access). -/
def lookupAttr (k : String) : AttrList → Option Str
| [] => none
| (k2, v) :: rest => if k = k2 then some v else lookupAttr k rest

/-- The Python exceptions that can escape the record-extraction code:
pydantic `ValidationError` (tagged with the model that failed), `ValueError`
from `int(...)`, `NameError` from the unbound `feed_object` variable, and
`AttributeError` from calling `.xpath` on `None`. -/
inductive PyErr where
| validationError (kind : String)
| valueError
| nameError
| attributeError
deriving DecidableEq

/-- Value of a list of decimal digit characters, most significant first. -/
def digitsVal (l : List Char) : Nat :=
  l.foldl (fun a c => a * 10 + (c.toNat - 48)) 0

/-- Decimal digits of a natural number, most significant first, with
explicit recursion fuel so the definition is structurally recursive (the
fuel `n + 1` always suffices). -/
def natDigitsAux : Nat → Nat → List Char
| 0, _ => []
| fuel + 1, n =>
  if n < 10 then [Char.ofNat (48 + n)]
  else natDigitsAux fuel (n / 10) ++ [Char.ofNat (48 + n % 10)]

/-- Decimal digits of a natural number, most significant first
(the rendering Python's `str` gives for a nonnegative `int`). -/
def natDigits (n : Nat) : List Char := natDigitsAux (n + 1) n

/-- Python's `str` of an integer. -/
def intRepr (i : Int) : Str :=
  if i < 0 then '-' :: natDigits i.natAbs else natDigits i.toNat

/-- A nonempty all-digit string read as a natural number. -/
def pyNat (s : Str) : Option Nat :=
  if s ≠ [] ∧ s.all Char.isDigit then some (digitsVal s) else none

/-- Python's `int(...)` applied to a string (the subset relevant here:
an optional leading sign followed by at least one decimal digit);
`none` is a raised `ValueError`. -/
def pyInt (s : Str) : Option Int :=
  match s with
  | [] => none
  | c :: rest =>
    if c = '-' then (pyNat rest).map (fun n : Nat => -(n : Int))
    else if c = '+' then (pyNat rest).map (fun n : Nat => (n : Int))
    else (pyNat (c :: rest)).map (fun n : Nat => (n : Int))

/-- The string-to-boolean coercion the validation layer (pydantic) applies
to `bool` fields; `none` is a validation failure. -/
def pyBool (s : Str) : Option Bool :=
  let l := s.map Char.toLower
  if l = chars "true" ∨ l = chars "1" ∨ l = chars "yes" ∨ l = chars "on" ∨
     l = chars "t" ∨ l = chars "y" then some true
  else if l = chars "false" ∨ l = chars "0" ∨ l = chars "no" ∨ l = chars "off" ∨
     l = chars "f" ∨ l = chars "n" then some false
  else none

/-- The ISO-8601 timestamp shape the validation layer (pydantic) accepts for
`datetime` fields: `YYYY-MM-DDTHH:MM:SS` followed by an arbitrary suffix
(fractional seconds / timezone). The parsed value is kept as the raw string;
no claim depends on the decoded calendar value. -/
def isDatetimeStr (s : Str) : Bool :=
  match s with
  | y1 :: y2 :: y3 :: y4 :: '-' :: m1 :: m2 :: '-' :: d1 :: d2 :: 'T' ::
      h1 :: h2 :: ':' :: i1 :: i2 :: ':' :: s1 :: s2 :: _ =>
    [y1, y2, y3, y4, m1, m2, d1, d2, h1, h2, i1, i2, s1, s2].all Char.isDigit
  | _ => false

/-- Python's `s.split(",")`: splitting on every comma, keeping empty pieces
(`"".split(",") == [""]`). -/
def splitOnComma : Str → List Str
| [] => [[]]
| c :: cs =>
  if c = ',' then [] :: splitOnComma cs
  else
    match splitOnComma cs with
    | [] => [[c]]
    | h :: t => (c :: h) :: t

/-- `",".join` of already-rendered pieces. -/
def joinComma : List Str → Str
| [] => []
| [x] => x
| x :: y :: t => x ++ ',' :: joinComma (y :: t)

/-- Left-to-right conversion of every piece with `int`; the first failing
piece raises. -/
def mapIntPieces : List Str → Option (List Int)
| [] => some []
| s :: rest =>
  match pyInt s with
  | none => none
  | some i =>
    match mapIntPieces rest with
    | none => none
    | some l => some (i :: l)

/-- The integer-list coercion of `load_file` lines 102-104:
`[int(el) for el in value.split(",")]`; a piece `int` rejects raises
`ValueError`. -/
def coerceIntList (s : Str) : Except PyErr (List Int) :=
  match mapIntPieces (splitOnComma s) with
  | some l => .ok l
  | none => .error .valueError

/-- The `Playlist` pydantic model. -/
structure Playlist where
  title : Str
  smart : Bool
  sorting : Str
  includePodcastIds : Option (List Int)
  includeEpisodeIds : Option (List Int)
  sortedEpisodeIds : Option (List Int)
deriving DecidableEq

/-- The `Episode` pydantic model; `datetime` values are kept as their
validated source strings. -/
structure Episode where
  overcastId : Int
  pubDate : Str
  title : Str
  url : Str
  enclosureUrl : Str
  overcastUrl : Str
  progress : Int
  userUpdatedDate : Str
  userDeleted : Bool
  played : Bool
  userRecommendedDate : Option Str
deriving DecidableEq

/-- The `Feed` pydantic model. -/
structure Feed where
  overcastId : Int
  title : Str
  xmlUrl : Option Str
  htmlUrl : Option Str
  subscribed : Bool
  episodes : List Episode
deriving DecidableEq

/-- The `OPMLFile` pydantic model: the result aggregate of `load_file`. -/
structure OPMLFile where
  playlists : List Playlist
  feeds : List Feed
deriving DecidableEq

/-- Declared field names of `Playlist` (what `hasattr` on a constructed
playlist object reports for source attribute names). -/
def playlistFields : List String :=
  ["title", "smart", "sorting", "includePodcastIds", "includeEpisodeIds", "sortedEpisodeIds"]

/-- Declared field names of `Episode`. -/
def episodeFields : List String :=
  ["overcastId", "pubDate", "title", "url", "enclosureUrl", "overcastUrl",
   "progress", "userUpdatedDate", "userDeleted", "played", "userRecommendedDate"]

/-- Declared field names of `Feed`. -/
def feedFields : List String :=
  ["overcastId", "title", "xmlUrl", "htmlUrl", "subscribed", "episodes"]

/-- A required string field: missing ⇒ `ValidationError`. -/
def reqStr (kind : String) (a : AttrList) (k : String) : Except PyErr Str :=
  match lookupAttr k a with
  | some v => .ok v
  | none => .error (.validationError kind)

/-- A required int field: missing or non-numeric ⇒ `ValidationError`. -/
def reqInt (kind : String) (a : AttrList) (k : String) : Except PyErr Int :=
  match lookupAttr k a with
  | some v =>
    match pyInt v with
    | some i => .ok i
    | none => .error (.validationError kind)
  | none => .error (.validationError kind)

/-- An int field with a default. -/
def defInt (kind : String) (a : AttrList) (k : String) (d : Int) : Except PyErr Int :=
  match lookupAttr k a with
  | some v =>
    match pyInt v with
    | some i => .ok i
    | none => .error (.validationError kind)
  | none => .ok d

/-- A required boolean field. -/
def reqBool (kind : String) (a : AttrList) (k : String) : Except PyErr Bool :=
  match lookupAttr k a with
  | some v =>
    match pyBool v with
    | some b => .ok b
    | none => .error (.validationError kind)
  | none => .error (.validationError kind)

/-- A boolean field with a default. -/
def defBool (kind : String) (a : AttrList) (k : String) (d : Bool) : Except PyErr Bool :=
  match lookupAttr k a with
  | some v =>
    match pyBool v with
    | some b => .ok b
    | none => .error (.validationError kind)
  | none => .ok d

/-- A required datetime field. -/
def reqDate (kind : String) (a : AttrList) (k : String) : Except PyErr Str :=
  match lookupAttr k a with
  | some v => if isDatetimeStr v then .ok v else .error (.validationError kind)
  | none => .error (.validationError kind)

/-- An optional datetime field (defaults to `None`). -/
def optDate (kind : String) (a : AttrList) (k : String) : Except PyErr (Option Str) :=
  match lookupAttr k a with
  | some v => if isDatetimeStr v then .ok (some v) else .error (.validationError kind)
  | none => .ok none

/-- `Feed(**feed.attrs)`: construct a `Feed` from a node's attribute
mapping; unknown attributes are ignored by the model (pydantic's default
`extra` policy); a string value supplied for the `episodes` list field can
not validate. -/
def mkFeed (a : AttrList) : Except PyErr Feed := do
  let oid ← reqInt "feed" a "overcastId"
  let title ← reqStr "feed" a "title"
  let sub ← defBool "feed" a "subscribed" false
  if (lookupAttr "episodes" a).isSome then
    .error (.validationError "feed")
  else
    .ok { overcastId := oid, title := title,
          xmlUrl := lookupAttr "xmlUrl" a, htmlUrl := lookupAttr "htmlUrl" a,
          subscribed := sub, episodes := [] }

/-- `Episode(**episode.attrs)`. -/
def mkEpisode (a : AttrList) : Except PyErr Episode := do
  let oid ← reqInt "episode" a "overcastId"
  let pub ← reqDate "episode" a "pubDate"
  let title ← reqStr "episode" a "title"
  let url ← reqStr "episode" a "url"
  let enc ← reqStr "episode" a "enclosureUrl"
  let ovc ← reqStr "episode" a "overcastUrl"
  let prog ← defInt "episode" a "progress" 0
  let upd ← reqDate "episode" a "userUpdatedDate"
  let del ← defBool "episode" a "userDeleted" false
  let played ← defBool "episode" a "played" false
  let recDate ← optDate "episode" a "userRecommendedDate"
  .ok { overcastId := oid, pubDate := pub, title := title, url := url,
        enclosureUrl := enc, overcastUrl := ovc, progress := prog,
        userUpdatedDate := upd, userDeleted := del, played := played,
        userRecommendedDate := recDate }

/-- An optional integer-list playlist field, after the in-place coercion of
`load_file` lines 102-104: if the attribute is present its string is split
on commas and every piece converted with `int` (a bad piece raises
`ValueError`, before validation starts). -/
def optIntList (a : AttrList) (k : String) : Except PyErr (Option (List Int)) :=
  match lookupAttr k a with
  | some v => do
    let l ← coerceIntList v
    .ok (some l)
  | none => .ok none

/-- Lines 102-105: the three-field coercion followed by
`Playlist(**playlist.attrs)`. The coercion mutates only the values of the
three keys, so the later key iteration over `playlist.attrs` is unchanged
and construction can be fused with the coercion. -/
def mkPlaylist (a : AttrList) : Except PyErr Playlist := do
  let ipi ← optIntList a "includePodcastIds"
  let iei ← optIntList a "includeEpisodeIds"
  let sei ← optIntList a "sortedEpisodeIds"
  let title ← reqStr "playlist" a "title"
  let smart ← reqBool "playlist" a "smart"
  let sorting ← reqStr "playlist" a "sorting"
  .ok { title := title, smart := smart, sorting := sorting,
        includePodcastIds := ipi, includeEpisodeIds := iei,
        sortedEpisodeIds := sei }

/-- A parsed XML `outline` tree: each node carries its attribute mapping
and its child elements in document order. (All elements of the Overcast
export relevant to the walk are `outline` elements, so the tag is not
modelled; the xpath predicates used by the code select on attribute values
only.) -/
inductive OutlineNode where
| mk (attrs : AttrList) (children : List OutlineNode)

/-- The attribute mapping of a node. -/
def OutlineNode.attrs : OutlineNode → AttrList
| .mk a _ => a

/-- The child elements of a node. -/
def OutlineNode.children : OutlineNode → List OutlineNode
| .mk _ c => c

/-- Does the node carry attribute `k` with value `v`? -/
def hasAttrVal (k : String) (v : Str) (a : AttrList) : Bool :=
  match lookupAttr k a with
  | some w => w = v
  | none => false

mutual

/-- `node.xpath("//outline[@k='v']")`: all matching nodes of the subtree
rooted at the node, in document (preorder) order. The library re-parses the
element it is called on as its own document, so the search is
descendant-or-self relative to that element. -/
def findAllNode (k : String) (v : Str) : OutlineNode → List OutlineNode
| .mk a cs =>
  (if hasAttrVal k v a then [OutlineNode.mk a cs] else []) ++ findAllNodes k v cs

/-- `findAllNode` over a forest, left to right. -/
def findAllNodes (k : String) (v : Str) : List OutlineNode → List OutlineNode
| [] => []
| n :: ns => findAllNode k v n ++ findAllNodes k v ns

end

/-- `xpath(..., first=True)`: the first match in document order, or `None`. -/
def findFirst (k : String) (v : Str) (n : OutlineNode) : Option OutlineNode :=
  (findAllNode k v n).head?

/-- The log lines the module can emit (payload text elided; only the event
kind and, for the unknown-attribute warnings, the reported list are load
bearing). `validationError`/`jsonDump` are the two `logger.error` calls of a
caught per-record failure. -/
inductive LogEvent where
| missingPlaylists
| validationError (kind : String)
| jsonDump (kind : String)
| unhandledWarning (kind : String) (attrs : List String)
deriving DecidableEq

/-- The inner unknown-attribute collection loop (e.g. lines 120-126): fold
over a node's attribute names in document order, appending a name when it is
not ignored, not already collected, and not an attribute of the constructed
object. -/
def collectUnhandled (ignore fields : List String) (acc : List String)
    (keys : List String) : List String :=
  keys.foldl (fun u attr =>
    if attr ∈ ignore ∨ attr ∈ u ∨ attr ∈ fields then u else u ++ [attr]) acc

/-- `ignore_playlist_attr` (line 91). -/
def ignorePlaylistAttr : List String := ["text", "type"]

/-- `ignore_feed_attr` (line 88). -/
def ignoreFeedAttr : List String := ["type", "text"]

/-- `ignore_episode_attr` (line 94). -/
def ignoreEpisodeAttr : List String := ["text", "type"]

/-- One iteration of the playlist loop (lines 101-114): coerce and
construct (failures propagate uncaught), optionally collect unknown
attribute names, append the playlist. State: built playlists and the
`unhandled_playlist_attr` accumulator. -/
def playlistStep (check : Bool) (st : List Playlist × List String)
    (node : OutlineNode) : Except PyErr (List Playlist × List String) :=
  match mkPlaylist node.attrs with
  | .error e => .error e
  | .ok p =>
    let u := if check then
        collectUnhandled ignorePlaylistAttr playlistFields st.2 (node.attrs.map (·.1))
      else st.2
    .ok (st.1 ++ [p], u)

/-- The playlist loop. -/
def playlistLoop (check : Bool) : List OutlineNode → List Playlist × List String →
    Except PyErr (List Playlist × List String)
| [], st => .ok st
| n :: ns, st =>
  match playlistStep check st n with
  | .error e => .error e
  | .ok st2 => playlistLoop check ns st2

/-- Mutable state of the feed loop, with Python object identity made
explicit: `heap` holds every successfully constructed `Feed` object,
`refs` is `retval.feeds` as references into the heap, and `cur` is the
current binding of the `feed_object` variable (`none` = still unbound). -/
structure FeedState where
  heap : List Feed
  refs : List Nat
  cur : Option Nat
  uF : List String
  uE : List String
  logs : List LogEvent
deriving DecidableEq

/-- Replace the element at an index (identity when out of range):
mutation of a heap cell. -/
def listModify (f : Feed → Feed) : List Feed → Nat → List Feed
| [], _ => []
| x :: xs, 0 => f x :: xs
| x :: xs, i + 1 => x :: listModify f xs i

/-- One iteration of the episode loop (lines 132-147): construct the
episode (a `ValidationError` is caught, logged twice and skipped), append
it to the object currently bound to `feed_object` — a `NameError` if that
variable is unbound, raised inside the `try` but not caught by
`except ValidationError` — then optionally collect unknown attributes. An
uncaught error carries the state already mutated (log lines already
emitted). -/
def episodeStep (check : Bool) (st : FeedState) (node : OutlineNode) :
    Except (PyErr × FeedState) FeedState :=
  match mkEpisode node.attrs with
  | .error _ =>
    .ok { st with logs := st.logs ++ [.validationError "episode", .jsonDump "episode"] }
  | .ok ep =>
    match st.cur with
    | none => .error (.nameError, st)
    | some i =>
      .ok { st with
            heap := listModify (fun f => { f with episodes := f.episodes ++ [ep] }) st.heap i,
            uE := if check then
                collectUnhandled ignoreEpisodeAttr episodeFields st.uE (node.attrs.map (·.1))
              else st.uE }

/-- The episode loop over a feed node's episode elements. -/
def episodeLoop (check : Bool) : FeedState → List OutlineNode →
    Except (PyErr × FeedState) FeedState
| st, [] => .ok st
| st, n :: ns =>
  match episodeStep check st n with
  | .error e => .error e
  | .ok st2 => episodeLoop check st2 ns

/-- Lines 117-129 of the feed loop: try to construct the feed — on success
allocate a new object, rebind `feed_object` and collect unknown attributes;
on `ValidationError` log twice and fall through with `feed_object`
unchanged. -/
def feedBegin (check : Bool) (st : FeedState) (node : OutlineNode) : FeedState :=
  match mkFeed node.attrs with
  | .ok f =>
    { st with heap := st.heap ++ [f], cur := some st.heap.length,
              uF := if check then
                  collectUnhandled ignoreFeedAttr feedFields st.uF (node.attrs.map (·.1))
                else st.uF }
  | .error _ =>
    { st with logs := st.logs ++ [.validationError "feed", .jsonDump "feed"] }

/-- Line 149, `retval.feeds.append(feed_object)`, applied to the episode
loop's result: a `NameError` if `feed_object` is still unbound. -/
def feedFinish (r : Except (PyErr × FeedState) FeedState) :
    Except (PyErr × FeedState) FeedState :=
  match r with
  | .error e => .error e
  | .ok st2 =>
    match st2.cur with
    | none => .error (.nameError, st2)
    | some i => .ok { st2 with refs := st2.refs ++ [i] }

/-- One iteration of the feed loop (lines 116-149): the construction
attempt, then the episode loop over
`feed.xpath("//outline[@type='podcast-episode']")`, then the trailing
append. -/
def feedStep (check : Bool) (st : FeedState) (node : OutlineNode) :
    Except (PyErr × FeedState) FeedState :=
  feedFinish (episodeLoop check (feedBegin check st node)
    (findAllNode "type" (chars "podcast-episode") node))

/-- The feed loop. -/
def feedLoop (check : Bool) : FeedState → List OutlineNode →
    Except (PyErr × FeedState) FeedState
| st, [] => .ok st
| st, n :: ns =>
  match feedStep check st n with
  | .error e => .error e
  | .ok st2 => feedLoop check st2 ns

/-- The initial feed-loop state. -/
def initFeedState : FeedState := ⟨[], [], none, [], [], []⟩

/-- A placeholder for reading a heap cell; references produced by the loop
are always in range, so the default is never the value read. -/
def dummyFeed : Feed := ⟨0, [], none, none, false, []⟩

/-- The summary warnings of lines 150-164, one per non-empty
unknown-attribute list, in playlist / feed / episode order. -/
def warningsFor (uP uF uE : List String) : List LogEvent :=
  (if uP.isEmpty then [] else [.unhandledWarning "playlist" uP]) ++
  (if uF.isEmpty then [] else [.unhandledWarning "feed" uF]) ++
  (if uE.isEmpty then [] else [.unhandledWarning "episode" uE])

/-- How a `load_file` call ends: a returned `OPMLFile`, `sys.exit(code)`,
or an uncaught exception propagating to the caller. -/
inductive LoadOutcome where
| ok (v : OPMLFile)
| exited (code : Nat)
| raised (e : PyErr)
deriving DecidableEq

/-- The outcome of `load_file` together with the log lines emitted. -/
structure LoadResult where
  outcome : LoadOutcome
  logs : List LogEvent
deriving DecidableEq

/-- `load_file(filename, check_unhandled_attr)` (lines 65-166). The input
is the parsed document tree, `none` when `filename.exists()` is false (the
leading-line strip and XML parse are the external tree library). Notes kept
from the source: the missing-`feeds` case has no `None` check, so line 116
calls `.xpath` on `None` — an uncaught `AttributeError`; the `None` check on
`playlists_xpath` (lines 97-99) is dead code because a non-`first` xpath
call returns a list. -/
def load_file (file : Option OutlineNode) (check_unhandled_attr : Bool) : LoadResult :=
  match file with
  | none => ⟨.ok ⟨[], []⟩, []⟩
  | some xmldata =>
    match findFirst "text" (chars "playlists") xmldata with
    | none => ⟨.exited 1, [.missingPlaylists]⟩
    | some playlistsNode =>
      let feeds := findFirst "text" (chars "feeds") xmldata
      let playlistNodes := findAllNode "type" (chars "podcast-playlist") playlistsNode
      match playlistLoop check_unhandled_attr playlistNodes ([], []) with
      | .error e => ⟨.raised e, []⟩
      | .ok pst =>
        match feeds with
        | none => ⟨.raised .attributeError, []⟩
        | some feedsNode =>
          match feedLoop check_unhandled_attr initFeedState
              (findAllNode "type" (chars "rss") feedsNode) with
          | .error (e, st) => ⟨.raised e, st.logs⟩
          | .ok fst =>
            ⟨.ok ⟨pst.1, fst.refs.map (fun i => fst.heap.getD i dummyFeed)⟩,
             fst.logs ++ (if check_unhandled_attr then warningsFor pst.2 fst.uF fst.uE else [])⟩

/-- What an invocation of the command-line entry point produces: the
process exit status and whether a message was printed to the error
stream. -/
structure CliResult where
  exitCode : Nat
  stderrMessage : Bool
deriving DecidableEq

/-- `cli` (lines 169-181), including the argument handling of the
command-line library: the positional argument is declared with the `File`
parameter type, which opens the file while arguments are parsed, so a
nonexistent path raises a usage error — message to the error stream, exit
status 2 — before the command body runs. When the file exists the body runs
`load_file(filepath, check_unhandled_attr=True)`; an uncaught exception from
it terminates the interpreter with status 1, `sys.exit(1)` with status 1,
and a normal return prints the serialized aggregate and exits 0. The body's
own `filepath.exists()` branch (stderr message, return with status 0) is
unreachable for a nonexistent path because the argument conversion failed
first. -/
def cli (file : Option OutlineNode) : CliResult :=
  match file with
  | none => ⟨2, true⟩
  | some tree =>
    match (load_file (some tree) true).outcome with
    | .ok _ => ⟨0, false⟩
    | .exited code => ⟨code, true⟩
    | .raised _ => ⟨1, true⟩

/-- A valid `podcast-episode` node carrying the given `overcastId`. -/
def epNode (id : String) : OutlineNode :=
  .mk [("type", chars "podcast-episode"), ("overcastId", chars id),
       ("pubDate", chars "2021-01-01T00:00:00Z"), ("title", chars "Ep"),
       ("url", chars "u"), ("enclosureUrl", chars "e"), ("overcastUrl", chars "o"),
       ("userUpdatedDate", chars "2021-01-02T00:00:00Z")] []

/-- The `Episode` record `epNode` validates to. -/
def epVal (id : Int) : Episode :=
  ⟨id, chars "2021-01-01T00:00:00Z", chars "Ep", chars "u", chars "e", chars "o",
   0, chars "2021-01-02T00:00:00Z", false, false, none⟩

/-- A valid `rss` feed node with one valid episode. -/
def feedANode : OutlineNode :=
  .mk [("type", chars "rss"), ("overcastId", chars "1"), ("title", chars "A"),
       ("subscribed", chars "true")] [epNode "101"]

/-- An `rss` feed node whose construction fails validation (required
`overcastId` missing), with one valid episode child. -/
def feedBNode : OutlineNode :=
  .mk [("type", chars "rss"), ("title", chars "B")] [epNode "102"]

/-- The `playlists` outline section. -/
def playlistsSection (ns : List OutlineNode) : OutlineNode :=
  .mk [("text", chars "playlists")] ns

/-- The `feeds` outline section. -/
def feedsSection (ns : List OutlineNode) : OutlineNode :=
  .mk [("text", chars "feeds")] ns

/-- A document tree with the given playlist and feed children. -/
def docTree (ps fs : List OutlineNode) : OutlineNode :=
  .mk [] [playlistsSection ps, feedsSection fs]

/-- Two feed nodes of which the second fails validation: the concrete
input behind the feed-failure claims. -/
def bugTree : OutlineNode := docTree [] [feedANode, feedBNode]

/-- A single feed node that fails validation as the first feed node. -/
def firstFailTree : OutlineNode := docTree [] [feedBNode]

/-- A document with a `playlists` section but no `feeds` section. -/
def noFeedsTree : OutlineNode := .mk [] [playlistsSection []]

/-- A `podcast-playlist` node that fails validation (required `title`
missing). -/
def badPlaylistNode : OutlineNode :=
  .mk [("type", chars "podcast-playlist"), ("smart", chars "false"),
       ("sorting", chars "manual")] []

/-- A document whose only playlist node fails validation. -/
def badPlaylistTree : OutlineNode := docTree [badPlaylistNode] []

/-- A valid feed node carrying one extra (unknown) attribute. -/
def feedUnknown (id title extra : String) : OutlineNode :=
  .mk [("type", chars "rss"), ("overcastId", chars id), ("title", chars title),
       (extra, chars "1")] []

/-- Three valid feed nodes presenting unknown attributes `x`, `y`, `x` in
that node order. -/
def xyxTree : OutlineNode :=
  docTree [] [feedUnknown "1" "F1" "x", feedUnknown "2" "F2" "y", feedUnknown "3" "F3" "x"]

/-- A document with neither a `playlists` nor a `feeds` section. -/
def noPlaylistsTree : OutlineNode := OutlineNode.mk [] []

/-- The value both entries of `(load_file (some bugTree) false)`'s feed list
hold: the feed of `feedANode`, carrying its own episode 101 and the adopted
episode 102 of the failed `feedBNode`. -/
def dupFeedVal : Feed := ⟨1, chars "A", none, none, true, [epVal 101, epVal 102]⟩

/-- C1: the claim says a feed node that fails validation is excluded, so
2 feed nodes with exactly 1 failure yield 1 feed, with the valid feed's
episodes unchanged (only episode 101). The code instead leaves `feed_object`
bound to the previously built feed: on `bugTree` (valid feed A with episode
101, then invalid feed B with valid episode 102) it returns 2 feed entries —
the same feed A object twice — and feed A's episode list has grown to
[101, 102]. The failure is logged (the two `logger.error` calls), as the
claim states, but the exclusion and episode-preservation parts fail. -/
theorem c1_failed_feed_not_dropped :
    load_file (some bugTree) false =
      ⟨.ok ⟨[], [dupFeedVal, dupFeedVal]⟩, [.validationError "feed", .jsonDump "feed"]⟩ ∧
    dupFeedVal.episodes = [epVal 101, epVal 102] := by
  exact ⟨rfl, rfl⟩

/-- C2: the claim says every episode in the result is reachable from
exactly one feed of the feed sequence. On `bugTree` the second (invalid)
feed node causes the previous feed object to be appended to the feed list a
second time, so episode 101 — owned by the one valid feed — sits in the
episode list of two entries of the returned feed sequence. -/
theorem c2_episode_reachable_twice :
    (match (load_file (some bugTree) false).outcome with
     | .ok f => f.feeds.countP (fun fd => decide (epVal 101 ∈ fd.episodes))
     | _ => 0) = 2 := by
  decide

/-- C3: the claim says a tree lacking the `playlists` or the `feeds`
section makes `load_file` log an error naming the missing section and exit
non-zero. The missing-`playlists` half behaves exactly so (`noPlaylistsTree`:
logged `missingPlaylists`, `sys.exit(1)`), but the missing-`feeds` half does
not: there is no `None` check for the feeds lookup, so line 116 calls
`.xpath` on `None` and an uncaught `AttributeError` propagates with no
logged message naming the section (`noFeedsTree`). -/
theorem c3_missing_feeds_raises_attribute_error :
    (∀ check, load_file (some noPlaylistsTree) check = ⟨.exited 1, [.missingPlaylists]⟩) ∧
    (∀ check, load_file (some noFeedsTree) check = ⟨.raised .attributeError, []⟩) := by
  refine ⟨fun check => ?_, fun check => ?_⟩ <;> cases check <;> rfl

/-- C5: for an absent file (`none`), `load_file` returns the empty
aggregate — empty playlist and feed sequences — with no error and no log
output, for both values of the report flag. -/
theorem c5_absent_file_empty_aggregate :
    ∀ check_unhandled_attr, load_file none check_unhandled_attr = ⟨.ok ⟨[], []⟩, []⟩ :=
  fun _ => rfl

/-- Appending one digit multiplies the accumulated value by ten. -/
theorem digitsVal_append_last (l : List Char) (c : Char) :
    digitsVal (l ++ [c]) = digitsVal l * 10 + (c.toNat - 48) := by
  simp [digitsVal, List.foldl_append]

/-- The character of a decimal digit is a digit and decodes back to it. -/
theorem digitChar_spec (n : Nat) (h : n < 10) :
    (Char.ofNat (48 + n)).isDigit = true ∧ (Char.ofNat (48 + n)).toNat = 48 + n := by
  interval_cases n <;> exact ⟨by decide, by decide⟩

/-- With enough fuel, `natDigitsAux` produces a nonempty all-digit string
that decodes to its input. -/
theorem natDigitsAux_spec : ∀ f n, n < f →
    (natDigitsAux f n).all Char.isDigit = true ∧ natDigitsAux f n ≠ [] ∧
    digitsVal (natDigitsAux f n) = n := by
  intro f
  induction f with
  | zero => intro n h; omega
  | succ f ih =>
    intro n h
    by_cases h10 : n < 10
    · obtain ⟨hd, hv⟩ := digitChar_spec n h10
      refine ⟨?_, ?_, ?_⟩ <;> simp [natDigitsAux, h10, hd, digitsVal, hv]
    · have hlt : n / 10 < f := by
        have h1 : n / 10 < n := Nat.div_lt_self (by omega) (by omega)
        omega
      obtain ⟨ha, hne, hval⟩ := ih (n / 10) hlt
      obtain ⟨hd, hv⟩ := digitChar_spec (n % 10) (Nat.mod_lt n (by omega))
      have hstep : natDigitsAux (f + 1) n =
          natDigitsAux f (n / 10) ++ [Char.ofNat (48 + n % 10)] := by
        rw [natDigitsAux, if_neg h10]
      refine ⟨?_, ?_, ?_⟩
      · rw [hstep]; simp [List.all_append, ha, hd]
      · rw [hstep]; simp
      · rw [hstep, digitsVal_append_last, hval, hv]
        omega

/-- `natDigits` produces a nonempty all-digit string decoding to its
input. -/
theorem natDigits_spec (n : Nat) :
    (natDigits n).all Char.isDigit = true ∧ natDigits n ≠ [] ∧
    digitsVal (natDigits n) = n :=
  natDigitsAux_spec (n + 1) n (by omega)

/-- Reading back the digits of a natural number. -/
theorem pyNat_natDigits (n : Nat) : pyNat (natDigits n) = some n := by
  obtain ⟨ha, hne, hv⟩ := natDigits_spec n
  rw [pyNat, if_pos ⟨hne, ha⟩, hv]

/-- A digit character is not the minus sign. -/
theorem isDigit_ne_dash {c : Char} (h : c.isDigit = true) : c ≠ '-' := by
  intro he; subst he; exact absurd h (by decide)

/-- A digit character is not the plus sign. -/
theorem isDigit_ne_plus {c : Char} (h : c.isDigit = true) : c ≠ '+' := by
  intro he; subst he; exact absurd h (by decide)

/-- A digit character is not a comma. -/
theorem isDigit_ne_comma {c : Char} (h : c.isDigit = true) : c ≠ ',' := by
  intro he; subst he; exact absurd h (by decide)

/-- Reading back Python's rendering of an integer. -/
theorem pyInt_intRepr (i : Int) : pyInt (intRepr i) = some i := by
  rw [intRepr]
  by_cases hi : i < 0
  · rw [if_pos hi]
    show pyInt ('-' :: natDigits i.natAbs) = some i
    simp only [pyInt, if_pos rfl, pyNat_natDigits]
    have h2 : ((i.natAbs : Int)) = -i := by omega
    simp [h2]
  · rw [if_neg hi]
    obtain ⟨ha, hne, hv⟩ := natDigits_spec i.toNat
    cases hl : natDigits i.toNat with
    | nil => exact absurd hl hne
    | cons c rest =>
      rw [hl] at ha
      have hc : c.isDigit = true := by
        have := List.all_eq_true.mp ha c (List.mem_cons_self c rest)
        simpa using this
      rw [hl] at hv
      show pyInt (c :: rest) = some i
      simp only [pyInt]
      rw [if_neg (isDigit_ne_dash hc), if_neg (isDigit_ne_plus hc)]
      have hp : pyNat (c :: rest) = some i.toNat := by
        rw [← hl] at ha hv ⊢
        rw [pyNat, if_pos ⟨hne, ha⟩, hv]
      rw [hp]
      simp [Int.toNat_of_nonneg (by omega : (0 : Int) ≤ i)]

/-- Splitting never yields the empty list of pieces. -/
theorem splitOnComma_ne_nil (s : Str) : splitOnComma s ≠ [] := by
  cases s with
  | nil => simp [splitOnComma]
  | cons c cs =>
    by_cases hc : c = ','
    · simp [splitOnComma, hc]
    · rw [splitOnComma, if_neg hc]
      cases splitOnComma cs <;> simp

/-- A comma-free string is a single piece. -/
theorem splitOnComma_no_comma : ∀ {s : Str}, ',' ∉ s → splitOnComma s = [s] := by
  intro s
  induction s with
  | nil => intro _; rfl
  | cons c cs ih =>
    intro h
    have hc : c ≠ ',' := fun he => h (he ▸ List.mem_cons_self c cs)
    have hcs : ',' ∉ cs := fun hm => h (List.mem_cons_of_mem c hm)
    rw [splitOnComma, if_neg hc, ih hcs]

/-- Splitting after a comma-free prefix and a comma peels off the
prefix. -/
theorem splitOnComma_append (rest : Str) :
    ∀ {xs : Str}, ',' ∉ xs → splitOnComma (xs ++ ',' :: rest) = xs :: splitOnComma rest := by
  intro xs
  induction xs with
  | nil =>
    intro _
    show splitOnComma (',' :: rest) = [] :: splitOnComma rest
    simp [splitOnComma]
  | cons c cs ih =>
    intro h
    have hc : c ≠ ',' := fun he => h (he ▸ List.mem_cons_self c cs)
    have hcs : ',' ∉ cs := fun hm => h (List.mem_cons_of_mem c hm)
    show splitOnComma (c :: (cs ++ ',' :: rest)) = (c :: cs) :: splitOnComma rest
    rw [splitOnComma, if_neg hc, ih hcs]

/-- Splitting inverts joining for nonempty lists of comma-free pieces. -/
theorem splitOnComma_joinComma :
    ∀ l : List Str, (∀ x ∈ l, ',' ∉ x) → l ≠ [] → splitOnComma (joinComma l) = l := by
  intro l
  induction l with
  | nil => intro _ h; exact absurd rfl h
  | cons x t ih =>
    intro hall _
    cases t with
    | nil => exact splitOnComma_no_comma (hall x (List.mem_cons_self x []))
    | cons y t2 =>
      show splitOnComma (x ++ ',' :: joinComma (y :: t2)) = x :: y :: t2
      rw [splitOnComma_append _ (hall x (List.mem_cons_self x (y :: t2)))]
      rw [ih (fun z hz => hall z (List.mem_cons_of_mem x hz)) (by simp)]

/-- The rendering of an integer is comma free. -/
theorem comma_not_mem_intRepr (i : Int) : ',' ∉ intRepr i := by
  have hnat : ∀ n : Nat, ',' ∉ natDigits n := by
    intro n hm
    obtain ⟨ha, _, _⟩ := natDigits_spec n
    exact absurd (List.all_eq_true.mp ha ',' hm) (by decide)
  rw [intRepr]
  split
  · intro hm
    rcases List.mem_cons.mp hm with h | h
    · exact absurd h (by decide)
    · exact hnat _ h
  · exact hnat _

/-- Converting the rendered pieces back recovers the integer list. -/
theorem mapIntPieces_map_intRepr :
    ∀ ns : List Int, mapIntPieces (ns.map intRepr) = some ns := by
  intro ns
  induction ns with
  | nil => rfl
  | cons i t ih =>
    show mapIntPieces (intRepr i :: t.map intRepr) = some (i :: t)
    rw [mapIntPieces, pyInt_intRepr, ih]

/-- A successful piece conversion of an empty piece list is impossible
after a split. -/
theorem coerce_ok_ne_nil {s : Str} {ns : List Int}
    (h : coerceIntList s = .ok ns) : ns ≠ [] := by
  intro he
  subst he
  rw [coerceIntList] at h
  cases hm : mapIntPieces (splitOnComma s) with
  | none => rw [hm] at h; cases h
  | some l =>
    rw [hm] at h
    cases hsp : splitOnComma s with
    | nil => exact absurd hsp (splitOnComma_ne_nil s)
    | cons p t =>
      rw [hsp, mapIntPieces] at hm
      cases hpi : pyInt p with
      | none => rw [hpi] at hm; cases hm
      | some i =>
        rw [hpi] at hm
        cases hmt : mapIntPieces t with
        | none => rw [hmt] at hm; cases hm
        | some l2 =>
          rw [hmt] at hm
          cases h
          cases hm

/-- C6: for any comma-separated string that the integer-list coercion of
the playlist fields accepts, re-joining the resulting integers with commas
and coercing again reproduces exactly the same integer sequence — order
preserved, duplicates kept. -/
theorem c6_int_list_roundtrip (s : Str) (ns : List Int)
    (h : coerceIntList s = .ok ns) :
    coerceIntList (joinComma (ns.map intRepr)) = .ok ns := by
  have hne : ns ≠ [] := coerce_ok_ne_nil h
  rw [coerceIntList]
  rw [splitOnComma_joinComma (ns.map intRepr)
      (by intro x hx
          obtain ⟨i, _, hi⟩ := List.mem_map.mp hx
          exact hi ▸ comma_not_mem_intRepr i)
      (by simpa using hne)]
  rw [mapIntPieces_map_intRepr]

/-- C6 witness: the coercion at `"101,102,103"` and its round trip. -/
theorem c6_int_list_roundtrip_witness :
    coerceIntList (chars "101,102,103") = .ok [101, 102, 103] ∧
    coerceIntList (joinComma (([101, 102, 103] : List Int).map intRepr)) =
      .ok [101, 102, 103] :=
  ⟨rfl, c6_int_list_roundtrip (chars "101,102,103") [101, 102, 103] rfl⟩

/-- A failing node makes the playlist loop fail (with the error of the
first failing node encountered; here only existence is needed). -/
theorem playlistLoop_error_of_mem (check : Bool) :
    ∀ (nodes : List OutlineNode) (st : List Playlist × List String),
      (∃ n ∈ nodes, ∃ e, mkPlaylist n.attrs = .error e) →
      ∃ e2, playlistLoop check nodes st = .error e2 := by
  intro nodes
  induction nodes with
  | nil =>
    intro st h
    obtain ⟨n, hn, _⟩ := h
    exact absurd hn (List.not_mem_nil n)
  | cons m ms ih =>
    intro st h
    rw [playlistLoop]
    cases hm : mkPlaylist m.attrs with
    | error e =>
      refine ⟨e, ?_⟩
      rw [playlistStep, hm]
    | ok p =>
      obtain ⟨n, hn, e, he⟩ := h
      rcases List.mem_cons.mp hn with rfl | hn2
      · rw [hm] at he; cases he
      · rw [playlistStep, hm]
        exact ih _ ⟨n, hn2, e, he⟩

/-- C4: a playlist node whose construction fails makes `load_file`
propagate the failure out uncaught — the whole run aborts with a raised
error (in contrast with feed and episode validation failures, which are
caught per record; see the feed-failure theorems). -/
theorem c4_playlist_failure_propagates
    (t : OutlineNode) (check : Bool) (P : OutlineNode)
    (hp : findFirst "text" (chars "playlists") t = some P)
    (n : OutlineNode)
    (hn : n ∈ findAllNode "type" (chars "podcast-playlist") P)
    (hfail : ∃ e, mkPlaylist n.attrs = .error e) :
    ∃ e2, (load_file (some t) check).outcome = .raised e2 := by
  obtain ⟨e2, he2⟩ :=
    playlistLoop_error_of_mem check (findAllNode "type" (chars "podcast-playlist") P)
      ([], []) ⟨n, hn, hfail⟩
  refine ⟨e2, ?_⟩
  rw [load_file]
  simp only [hp, he2]

/-- C4 witness: the playlist node of `badPlaylistTree` (missing required
`title`) aborts the whole run. -/
theorem c4_playlist_failure_propagates_witness :
    ∃ e2, (load_file (some badPlaylistTree) false).outcome = .raised e2 :=
  c4_playlist_failure_propagates badPlaylistTree false (playlistsSection [badPlaylistNode])
    rfl badPlaylistNode (List.mem_cons_self _ _) ⟨.validationError "playlist", rfl⟩

/-- The episodes under a feed node that construct successfully, in
document order. -/
def validEpisodes (n : OutlineNode) : List Episode :=
  (findAllNode "type" (chars "podcast-episode") n).filterMap
    (fun m => (mkEpisode m.attrs).toOption)

/-- As `validEpisodes`, over an explicit episode-node list. -/
def episodesValid (es : List OutlineNode) : List Episode :=
  es.filterMap (fun m => (mkEpisode m.attrs).toOption)

/-- Appending nothing to a heap cell changes nothing. -/
theorem listModify_append_nil (h : List Feed) :
    ∀ i, listModify (fun f => { f with episodes := f.episodes ++ [] }) h i = h := by
  induction h with
  | nil => intro i; rfl
  | cons x xs ih =>
    intro i
    cases i with
    | zero => simp [listModify]
    | succ j => rw [listModify, ih]

/-- Two mutations of the same heap cell compose. -/
theorem listModify_comp (f g : Feed → Feed) (h : List Feed) :
    ∀ i, listModify g (listModify f h i) i = listModify (fun x => g (f x)) h i := by
  induction h with
  | nil => intro i; rfl
  | cons x xs ih =>
    intro i
    cases i with
    | zero => rfl
    | succ j => rw [listModify, listModify, listModify, ih]

/-- With `feed_object` unbound, the episode loop either hits the
`NameError` at the append or finishes with `feed_object` still unbound. -/
theorem episodeLoop_cur_none (check : Bool) :
    ∀ (es : List OutlineNode) (st : FeedState), st.cur = none →
      (∃ st2, episodeLoop check st es = .error (.nameError, st2)) ∨
      (∃ st2, episodeLoop check st es = .ok st2 ∧ st2.cur = none) := by
  intro es
  induction es with
  | nil => intro st h; exact .inr ⟨st, rfl, h⟩
  | cons m ms ih =>
    rintro ⟨heap, refs, cur, uF, uE, logs⟩ h
    have h2 : cur = none := h
    subst h2
    rw [episodeLoop]
    cases hm : mkEpisode m.attrs with
    | error e =>
      rw [episodeStep, hm]
      exact ih _ rfl
    | ok ep =>
      rw [episodeStep, hm]
      exact .inl ⟨_, rfl⟩

/-- With `feed_object` bound to heap cell `i`, the episode loop succeeds,
keeps the binding and the feed list untouched, and appends exactly the
episodes that validated to cell `i`. -/
theorem episodeLoop_cur_some (check : Bool) (i : Nat) :
    ∀ (es : List OutlineNode) (st : FeedState), st.cur = some i →
      ∃ st2, episodeLoop check st es = .ok st2 ∧ st2.cur = some i ∧
        st2.refs = st.refs ∧ st2.uF = st.uF ∧
        st2.heap = listModify
          (fun f => { f with episodes := f.episodes ++ episodesValid es }) st.heap i := by
  intro es
  induction es with
  | nil =>
    intro st h
    exact ⟨st, rfl, h, rfl, rfl, (listModify_append_nil st.heap i).symm⟩
  | cons m ms ih =>
    rintro ⟨heap, refs, cur, uF, uE, logs⟩ h
    have hc : cur = some i := h
    subst hc
    rw [episodeLoop]
    cases hm : mkEpisode m.attrs with
    | error e =>
      rw [episodeStep, hm]
      obtain ⟨st2, h1, h2, h3, h4, h5⟩ := ih
        ⟨heap, refs, some i, uF, uE, logs ++ [.validationError "episode", .jsonDump "episode"]⟩ rfl
      refine ⟨st2, h1, h2, h3, h4, ?_⟩
      rw [h5]
      have hval : episodesValid (m :: ms) = episodesValid ms := by
        simp [episodesValid, hm, Except.toOption]
      rw [hval]
    | ok ep =>
      rw [episodeStep, hm]
      obtain ⟨st2, h1, h2, h3, h4, h5⟩ := ih
        ⟨listModify (fun f => { f with episodes := f.episodes ++ [ep] }) heap i, refs, some i, uF,
         (if check then collectUnhandled ignoreEpisodeAttr episodeFields uE (m.attrs.map (·.1))
          else uE), logs⟩ rfl
      refine ⟨st2, h1, h2, h3, h4, ?_⟩
      rw [h5]
      show listModify _ (listModify _ heap i) i = _
      rw [listModify_comp]
      have hval : episodesValid (m :: ms) = ep :: episodesValid ms := by
        simp [episodesValid, hm, Except.toOption]
      rw [hval]
      have hfun : (fun x : Feed =>
          { { x with episodes := x.episodes ++ [ep] } with
            episodes := { x with episodes := x.episodes ++ [ep] }.episodes ++ episodesValid ms }) =
          (fun f : Feed => { f with episodes := f.episodes ++ ep :: episodesValid ms }) := by
        funext x
        simp
      rw [hfun]

/-- A feed node that fails validation while `feed_object` is unbound makes
the whole feed iteration raise `NameError`. -/
theorem feedStep_error_cur_none (check : Bool) (st : FeedState) (n : OutlineNode)
    (hcur : st.cur = none) (hf : ∃ e, mkFeed n.attrs = .error e) :
    ∃ st2, feedStep check st n = .error (.nameError, st2) := by
  obtain ⟨e, he⟩ := hf
  obtain ⟨heap, refs, cur, uF, uE, logs⟩ := st
  have hc : cur = none := hcur
  subst hc
  rw [feedStep, feedBegin, he]
  rcases episodeLoop_cur_none check (findAllNode "type" (chars "podcast-episode") n)
      ⟨heap, refs, none, uF, uE, logs ++ [.validationError "feed", .jsonDump "feed"]⟩ rfl with
    ⟨st2, h2⟩ | ⟨st2, h2, h3⟩
  · rw [h2]
    exact ⟨st2, rfl⟩
  · rw [h2]
    obtain ⟨h2heap, h2refs, h2cur, h2uF, h2uE, h2logs⟩ := st2
    have hc2 : h2cur = none := h3
    subst hc2
    exact ⟨_, rfl⟩

/-- C10: the code does not skip the subtree of a feed node whose
construction failed. Part one: if the failing node is the first feed node,
`feed_object` is unbound and `load_file` raises an uncaught `NameError`.
Part two: if a previous feed node succeeded (`feed_object` bound to heap
cell `i`), the failing node's validated episodes are appended to that
previously constructed feed object, and a reference to that same object is
appended to the feed list a second time. -/
theorem c10_failed_feed_fallthrough :
    (∀ (t : OutlineNode) (check : Bool) (P pst F : _) (n : OutlineNode)
        (rest : List OutlineNode),
       findFirst "text" (chars "playlists") t = some P →
       playlistLoop check (findAllNode "type" (chars "podcast-playlist") P) ([], []) = .ok pst →
       findFirst "text" (chars "feeds") t = some F →
       findAllNode "type" (chars "rss") F = n :: rest →
       (∃ e, mkFeed n.attrs = .error e) →
       (load_file (some t) check).outcome = .raised .nameError) ∧
    (∀ (check : Bool) (st : FeedState) (n : OutlineNode) (i : Nat),
       st.cur = some i →
       (∃ e, mkFeed n.attrs = .error e) →
       ∃ st2, feedStep check st n = .ok st2 ∧ st2.refs = st.refs ++ [i] ∧
         st2.cur = some i ∧
         st2.heap = listModify
           (fun f => { f with episodes := f.episodes ++ validEpisodes n }) st.heap i) := by
  constructor
  · intro t check P pst F n rest hp hpl hf hrss hfail
    obtain ⟨st2, hstep⟩ := feedStep_error_cur_none check initFeedState n rfl hfail
    have hloop : feedLoop check initFeedState (n :: rest) = .error (.nameError, st2) := by
      rw [feedLoop, hstep]
    rw [load_file]
    simp only [hp, hpl, hf, hrss, hloop]
  · intro check st n i hcur hfail
    obtain ⟨e, he⟩ := hfail
    obtain ⟨heap, refs, cur, uF, uE, logs⟩ := st
    have hc : cur = some i := hcur
    subst hc
    rw [feedStep, feedBegin, he]
    obtain ⟨st2, h1, h2, h3, h4, h5⟩ :=
      episodeLoop_cur_some check i (findAllNode "type" (chars "podcast-episode") n)
        ⟨heap, refs, some i, uF, uE, logs ++ [.validationError "feed", .jsonDump "feed"]⟩ rfl
    rw [h1]
    obtain ⟨h2heap, h2refs, h2cur, h2uF, h2uE, h2logs⟩ := st2
    have hc2 : h2cur = some i := h2
    subst hc2
    have h3b : h2refs = refs := h3
    subst h3b
    refine ⟨_, rfl, rfl, rfl, ?_⟩
    exact h5

/-- C10 witness: on `firstFailTree` the first feed node fails and the run
raises `NameError`; with `feed_object` bound to cell 0 of a one-feed heap,
processing the failing `feedBNode` re-appends reference 0 and adopts
episode 102 into cell 0. -/
theorem c10_failed_feed_fallthrough_witness :
    (load_file (some firstFailTree) false).outcome = .raised .nameError ∧
    (∃ st2, feedStep false ⟨[dupFeedVal], [0], some 0, [], [], []⟩ feedBNode = .ok st2 ∧
       st2.refs = ([0] : List Nat) ++ [0] ∧ st2.cur = some 0 ∧
       st2.heap = listModify
         (fun f => { f with episodes := f.episodes ++ validEpisodes feedBNode })
         [dupFeedVal] 0) :=
  ⟨c10_failed_feed_fallthrough.1 firstFailTree false (playlistsSection [])
      ([], []) (feedsSection [feedBNode]) feedBNode [] rfl rfl rfl rfl
      ⟨.validationError "feed", rfl⟩,
   c10_failed_feed_fallthrough.2 false ⟨[dupFeedVal], [0], some 0, [], [], []⟩
      feedBNode 0 rfl ⟨.validationError "feed", rfl⟩⟩

/-- Modelled from the spec's words: a deduplicated list "preserving
first-seen order" keeps each name's first occurrence and drops later
repeats. Stated independently of the code's accumulator fold so the fold
can be compared against it. -/
def specFirstSeenDedup : List String → List String
| [] => []
| x :: xs => x :: (specFirstSeenDedup xs).filter (fun y => y ≠ x)

/-- Filtering twice filters by the conjunction. -/
theorem filter_filter_str (p q : String → Bool) :
    ∀ l : List String, (l.filter p).filter q = l.filter (fun a => p a && q a) := by
  intro l
  induction l with
  | nil => rfl
  | cons x xs ih => cases hp : p x <;> cases hq : q x <;> simp [hp, hq, ih]

/-- First-seen deduplication commutes with filtering. -/
theorem specFirstSeenDedup_filter (p : String → Bool) :
    ∀ l : List String, specFirstSeenDedup (l.filter p) = (specFirstSeenDedup l).filter p := by
  intro l
  induction l with
  | nil => rfl
  | cons x xs ih =>
    cases hp : p x with
    | true =>
      have h1 : (x :: xs).filter p = x :: xs.filter p := List.filter_cons_of_pos hp
      rw [h1, specFirstSeenDedup, specFirstSeenDedup, ih]
      have h2 : (x :: (specFirstSeenDedup xs).filter (fun y => y ≠ x)).filter p =
          x :: ((specFirstSeenDedup xs).filter (fun y => y ≠ x)).filter p :=
        List.filter_cons_of_pos hp
      rw [h2, filter_filter_str, filter_filter_str]
      congr 1
      apply List.filter_congr
      intro a _
      rw [Bool.and_comm]
    | false =>
      have hp2 : ¬ p x = true := by rw [hp]; exact Bool.false_ne_true
      have h1 : (x :: xs).filter p = xs.filter p := List.filter_cons_of_neg hp2
      rw [h1, ih, specFirstSeenDedup]
      have h2 : (x :: (specFirstSeenDedup xs).filter (fun y => y ≠ x)).filter p =
          ((specFirstSeenDedup xs).filter (fun y => y ≠ x)).filter p :=
        List.filter_cons_of_neg hp2
      rw [h2, filter_filter_str]
      apply List.filter_congr
      intro a _
      by_cases hax : a = x
      · subst hax; simp [hp]
      · simp [hax]

/-- The accumulator fold of the unknown-attribute collection equals the
accumulator followed by the spec's first-seen dedup of the eligible,
not-yet-collected names. -/
theorem collectUnhandled_eq_general (ig fl : List String) :
    ∀ (keys acc : List String),
      collectUnhandled ig fl acc keys =
        acc ++ specFirstSeenDedup
          ((keys.filter (fun a => decide (a ∉ ig ∧ a ∉ fl))).filter
            (fun a => decide (a ∉ acc))) := by
  intro keys
  induction keys with
  | nil => intro acc; simp [collectUnhandled, specFirstSeenDedup]
  | cons k ks ih =>
    intro acc
    have hstep : collectUnhandled ig fl acc (k :: ks) =
        collectUnhandled ig fl (if k ∈ ig ∨ k ∈ acc ∨ k ∈ fl then acc else acc ++ [k]) ks := rfl
    by_cases hig : k ∈ ig ∨ k ∈ fl
    · have hcond : k ∈ ig ∨ k ∈ acc ∨ k ∈ fl := by tauto
      rw [hstep, if_pos hcond, ih]
      have hf1 : (k :: ks).filter (fun a => decide (a ∉ ig ∧ a ∉ fl)) =
          ks.filter (fun a => decide (a ∉ ig ∧ a ∉ fl)) := by
        apply List.filter_cons_of_neg
        simp only [decide_eq_true_eq]
        tauto
      rw [hf1]
    · have helig : ((fun a => decide (a ∉ ig ∧ a ∉ fl)) k) = true := by
        simp only [decide_eq_true_eq]
        tauto
      have hf1 : (k :: ks).filter (fun a => decide (a ∉ ig ∧ a ∉ fl)) =
          k :: ks.filter (fun a => decide (a ∉ ig ∧ a ∉ fl)) :=
        List.filter_cons_of_pos helig
      by_cases hacc : k ∈ acc
      · have hcond : k ∈ ig ∨ k ∈ acc ∨ k ∈ fl := by tauto
        rw [hstep, if_pos hcond, ih, hf1]
        have hf2 : (k :: ks.filter (fun a => decide (a ∉ ig ∧ a ∉ fl))).filter
              (fun a => decide (a ∉ acc)) =
            (ks.filter (fun a => decide (a ∉ ig ∧ a ∉ fl))).filter
              (fun a => decide (a ∉ acc)) := by
          apply List.filter_cons_of_neg
          simp [hacc]
        rw [hf2]
      · have hcond : ¬(k ∈ ig ∨ k ∈ acc ∨ k ∈ fl) := by tauto
        rw [hstep, if_neg hcond, ih, hf1]
        have hf2 : (k :: ks.filter (fun a => decide (a ∉ ig ∧ a ∉ fl))).filter
              (fun a => decide (a ∉ acc)) =
            k :: (ks.filter (fun a => decide (a ∉ ig ∧ a ∉ fl))).filter
              (fun a => decide (a ∉ acc)) := by
          apply List.filter_cons_of_pos
          simp [hacc]
        rw [hf2, specFirstSeenDedup, List.append_assoc]
        congr 1
        rw [List.singleton_append]
        congr 1
        rw [← specFirstSeenDedup_filter, filter_filter_str, filter_filter_str,
          filter_filter_str]
        congr 1
        apply List.filter_congr
        intro a _
        have hsplit : decide (a ∉ acc ++ [k]) = (decide (a ∉ acc) && decide (a ≠ k)) := by
          by_cases h1 : a ∈ acc <;> by_cases h2 : a = k <;> simp [h1, h2]
        rw [hsplit]

/-- The three unknown-attribute lists, collected from an empty
accumulator, are exactly the spec's first-seen dedup of the eligible
names in encounter order. -/
theorem collectUnhandled_eq_spec (ig fl keys : List String) :
    collectUnhandled ig fl [] keys =
      specFirstSeenDedup (keys.filter (fun a => decide (a ∉ ig ∧ a ∉ fl))) := by
  rw [collectUnhandled_eq_general, List.nil_append]
  congr 1
  apply List.filter_eq_self.mpr
  intro a _
  simp

/-- A well-formed unknown-attribute list: no duplicates and neither of the
ignored names. -/
def GoodU (l : List String) : Prop := l.Nodup ∧ "text" ∉ l ∧ "type" ∉ l

/-- The collection fold keeps the list well formed, provided the ignore
list covers `text` and `type` (all three ignore lists do). -/
theorem collectUnhandled_good (ig fl : List String)
    (htext : "text" ∈ ig) (htype : "type" ∈ ig) :
    ∀ (keys acc : List String), GoodU acc → GoodU (collectUnhandled ig fl acc keys) := by
  intro keys
  induction keys with
  | nil => intro acc h; exact h
  | cons k ks ih =>
    intro acc h
    have hstep : collectUnhandled ig fl acc (k :: ks) =
        collectUnhandled ig fl (if k ∈ ig ∨ k ∈ acc ∨ k ∈ fl then acc else acc ++ [k]) ks := rfl
    rw [hstep]
    by_cases hc : k ∈ ig ∨ k ∈ acc ∨ k ∈ fl
    · rw [if_pos hc]; exact ih acc h
    · rw [if_neg hc]
      have hkig : k ∉ ig := fun h2 => hc (Or.inl h2)
      have hkacc : k ∉ acc := fun h2 => hc (Or.inr (Or.inl h2))
      obtain ⟨h1, h2, h3⟩ := h
      refine ih (acc ++ [k]) ⟨?_, ?_, ?_⟩
      · exact List.Nodup.append h1 (List.nodup_singleton k)
          (fun a ha hb => (List.mem_singleton.mp hb ▸ hkacc) ha)
      · simp only [List.mem_append, List.mem_singleton]
        exact fun hor => hor.elim h2 (fun he => hkig (he ▸ htext))
      · simp only [List.mem_append, List.mem_singleton]
        exact fun hor => hor.elim h3 (fun he => hkig (he ▸ htype))

/-- No unknown-attribute warning among the given log lines. -/
def NoWarnLogs (logs : List LogEvent) : Prop :=
  ∀ k l, LogEvent.unhandledWarning k l ∉ logs

/-- The two error lines of a caught failure add no warning. -/
theorem noWarnLogs_append_errs {logs : List LogEvent} (h : NoWarnLogs logs)
    (kind : String) :
    NoWarnLogs (logs ++ [.validationError kind, .jsonDump kind]) := by
  intro k l hm
  rcases List.mem_append.mp hm with h1 | h1
  · exact h k l h1
  · simp at h1

/-- Invariant of the feed-loop state: both unknown-attribute lists well
formed and no warning emitted yet. -/
def FeedInv (st : FeedState) : Prop :=
  GoodU st.uF ∧ GoodU st.uE ∧ NoWarnLogs st.logs

/-- The invariant, on either outcome of a loop step. -/
def invResult : Except (PyErr × FeedState) FeedState → Prop
| .ok st2 => FeedInv st2
| .error (_, st2) => FeedInv st2

/-- One episode iteration preserves the invariant. -/
theorem episodeStep_inv (check : Bool) (st : FeedState) (n : OutlineNode)
    (h : FeedInv st) : invResult (episodeStep check st n) := by
  cases hm : mkEpisode n.attrs with
  | error e =>
    rw [episodeStep, hm]
    exact ⟨h.1, h.2.1, noWarnLogs_append_errs h.2.2 "episode"⟩
  | ok ep =>
    rw [episodeStep, hm]
    cases hcur : st.cur with
    | none => exact h
    | some i =>
      refine ⟨h.1, ?_, h.2.2⟩
      cases check with
      | false => exact h.2.1
      | true =>
        exact collectUnhandled_good ignoreEpisodeAttr episodeFields
          (by simp [ignoreEpisodeAttr]) (by simp [ignoreEpisodeAttr]) _ _ h.2.1

/-- The episode loop preserves the invariant. -/
theorem episodeLoop_inv (check : Bool) :
    ∀ (es : List OutlineNode) (st : FeedState), FeedInv st →
      invResult (episodeLoop check st es) := by
  intro es
  induction es with
  | nil => intro st h; exact h
  | cons m ms ih =>
    intro st h
    rw [episodeLoop]
    have hstep := episodeStep_inv check st m h
    cases hr : episodeStep check st m with
    | error e =>
      rw [hr] at hstep
      obtain ⟨e1, e2⟩ := e
      exact hstep
    | ok st2 =>
      rw [hr] at hstep
      exact ih st2 hstep

/-- The construction attempt preserves the invariant. -/
theorem feedBegin_inv (check : Bool) (st : FeedState) (n : OutlineNode)
    (h : FeedInv st) : FeedInv (feedBegin check st n) := by
  rw [feedBegin]
  cases hm : mkFeed n.attrs with
  | ok f =>
    refine ⟨?_, h.2.1, h.2.2⟩
    cases check with
    | false => exact h.1
    | true =>
      exact collectUnhandled_good ignoreFeedAttr feedFields
        (by simp [ignoreFeedAttr]) (by simp [ignoreFeedAttr]) _ _ h.1
  | error e => exact ⟨h.1, h.2.1, noWarnLogs_append_errs h.2.2 "feed"⟩

/-- The trailing append preserves the invariant. -/
theorem feedFinish_inv {r : Except (PyErr × FeedState) FeedState}
    (h : invResult r) : invResult (feedFinish r) := by
  cases r with
  | error e =>
    obtain ⟨e1, e2⟩ := e
    exact h
  | ok st2 =>
    obtain ⟨sh, sr, sc, su1, su2, sl⟩ := st2
    cases sc with
    | none => exact h
    | some i => exact ⟨h.1, h.2.1, h.2.2⟩

/-- One feed iteration preserves the invariant. -/
theorem feedStep_inv (check : Bool) (st : FeedState) (n : OutlineNode)
    (h : FeedInv st) : invResult (feedStep check st n) :=
  feedFinish_inv (episodeLoop_inv check _ _ (feedBegin_inv check st n h))

/-- The feed loop preserves the invariant. -/
theorem feedLoop_inv (check : Bool) :
    ∀ (ns : List OutlineNode) (st : FeedState), FeedInv st →
      invResult (feedLoop check st ns) := by
  intro ns
  induction ns with
  | nil => intro st h; exact h
  | cons m ms ih =>
    intro st h
    rw [feedLoop]
    have hstep := feedStep_inv check st m h
    cases hr : feedStep check st m with
    | error e =>
      rw [hr] at hstep
      obtain ⟨e1, e2⟩ := e
      exact hstep
    | ok st2 =>
      rw [hr] at hstep
      exact ih st2 hstep

/-- The playlist loop keeps its unknown-attribute list well formed. -/
theorem playlistLoop_good (check : Bool) :
    ∀ (nodes : List OutlineNode) (st : List Playlist × List String)
      (pst : List Playlist × List String), GoodU st.2 →
      playlistLoop check nodes st = .ok pst → GoodU pst.2 := by
  intro nodes
  induction nodes with
  | nil =>
    intro st pst h he
    cases he
    exact h
  | cons m ms ih =>
    intro st pst h he
    rw [playlistLoop] at he
    cases hm : mkPlaylist m.attrs with
    | error e => rw [playlistStep, hm] at he; cases he
    | ok p =>
      rw [playlistStep, hm] at he
      refine ih _ pst ?_ he
      cases check with
      | false => exact h
      | true =>
        exact collectUnhandled_good ignorePlaylistAttr playlistFields
          (by simp [ignorePlaylistAttr]) (by simp [ignorePlaylistAttr]) _ _ h

/-- A warning found among the summary warnings is one of the three final
lists and is non-empty. -/
theorem mem_warningsFor {k : String} {l a b c : List String}
    (h : LogEvent.unhandledWarning k l ∈ warningsFor a b c) :
    (l = a ∨ l = b ∨ l = c) ∧ l ≠ [] := by
  rw [warningsFor] at h
  rcases List.mem_append.mp h with h1 | h1
  · rcases List.mem_append.mp h1 with h2 | h2
    · by_cases ha : a.isEmpty
      · rw [if_pos ha] at h2; simp at h2
      · rw [if_neg ha] at h2
        have := List.mem_singleton.mp h2
        cases this
        exact ⟨Or.inl rfl, by
          intro he
          subst he
          exact ha rfl⟩
    · by_cases hb : b.isEmpty
      · rw [if_pos hb] at h2; simp at h2
      · rw [if_neg hb] at h2
        have := List.mem_singleton.mp h2
        cases this
        exact ⟨Or.inr (Or.inl rfl), by
          intro he
          subst he
          exact hb rfl⟩
  · by_cases hc : c.isEmpty
    · rw [if_pos hc] at h1; simp at h1
    · rw [if_neg hc] at h1
      have := List.mem_singleton.mp h1
      cases this
      exact ⟨Or.inr (Or.inr rfl), by
        intro he
        subst he
        exact hc rfl⟩

/-- Every unknown-attribute warning `load_file` emits carries a non-empty,
duplicate-free list that mentions neither `text` nor `type`. -/
theorem load_file_warnings_good (file : Option OutlineNode) (check : Bool)
    (k : String) (l : List String)
    (hmem : LogEvent.unhandledWarning k l ∈ (load_file file check).logs) :
    l ≠ [] ∧ l.Nodup ∧ "text" ∉ l ∧ "type" ∉ l := by
  cases file with
  | none => simp [load_file] at hmem
  | some t =>
    rw [load_file] at hmem
    cases hp : findFirst "text" (chars "playlists") t with
    | none => simp only [hp] at hmem; simp at hmem
    | some P =>
      simp only [hp] at hmem
      cases hpl : playlistLoop check (findAllNode "type" (chars "podcast-playlist") P) ([], []) with
      | error e => simp only [hpl] at hmem; simp at hmem
      | ok pst =>
        simp only [hpl] at hmem
        cases hf : findFirst "text" (chars "feeds") t with
        | none => simp only [hf] at hmem; simp at hmem
        | some F =>
          simp only [hf] at hmem
          have hinv0 : FeedInv initFeedState :=
            ⟨⟨List.nodup_nil, List.not_mem_nil _, List.not_mem_nil _⟩,
             ⟨List.nodup_nil, List.not_mem_nil _, List.not_mem_nil _⟩,
             fun _ l h => List.not_mem_nil _ h⟩
          have hinv := feedLoop_inv check (findAllNode "type" (chars "rss") F)
            initFeedState hinv0
          cases hfl : feedLoop check initFeedState (findAllNode "type" (chars "rss") F) with
          | error e =>
            rw [hfl] at hinv
            obtain ⟨e1, e2⟩ := e
            simp only [hfl] at hmem
            exact absurd hmem (hinv.2.2 k l)
          | ok fst =>
            rw [hfl] at hinv
            simp only [hfl] at hmem
            rcases List.mem_append.mp hmem with h1 | h1
            · exact absurd h1 (hinv.2.2 k l)
            · cases check with
              | false => simp at h1
              | true =>
                simp only [if_pos rfl] at h1
                obtain ⟨hor, hne⟩ := mem_warningsFor h1
                have hgoodP : GoodU pst.2 :=
                  playlistLoop_good true _ ([], []) pst
                    ⟨List.nodup_nil, List.not_mem_nil _, List.not_mem_nil _⟩ hpl
                rcases hor with he | he | he
                · exact he ▸ ⟨he ▸ hne, hgoodP.1, hgoodP.2.1, hgoodP.2.2⟩
                · exact he ▸ ⟨he ▸ hne, hinv.1.1, hinv.1.2.1, hinv.1.2.2⟩
                · exact he ▸ ⟨he ▸ hne, hinv.2.1.1, hinv.2.1.2.1, hinv.2.1.2.2⟩

/-- C7: the unknown-attribute lists are collected deduplicated in
first-seen order, ignoring `text` and `type` and the schema's own field
names (first conjunct: the collection fold equals the spec-side first-seen
dedup of the eligible names); every warning `load_file` emits carries a
non-empty, duplicate-free list without `text`/`type` — one warning per
non-empty list (second conjunct); and on feed nodes presenting unknown
attributes `x`, `y`, `x` in that node order the emitted report is exactly
one feed warning with `[x, y]` (third conjunct). -/
theorem c7_unknown_attr_reporting :
    (∀ ig fl keys, collectUnhandled ig fl [] keys =
        specFirstSeenDedup (keys.filter (fun a => decide (a ∉ ig ∧ a ∉ fl)))) ∧
    (∀ file check k l, LogEvent.unhandledWarning k l ∈ (load_file file check).logs →
        l ≠ [] ∧ l.Nodup ∧ "text" ∉ l ∧ "type" ∉ l) ∧
    (load_file (some xyxTree) true).logs = [.unhandledWarning "feed" ["x", "y"]] :=
  ⟨collectUnhandled_eq_spec, load_file_warnings_good, rfl⟩

/-- C7 witness: the feed warning of the `x`, `y`, `x` run, checked against
the second conjunct. -/
theorem c7_unknown_attr_reporting_witness :
    (["x", "y"] : List String) ≠ [] ∧ (["x", "y"] : List String).Nodup ∧
      "text" ∉ (["x", "y"] : List String) ∧ "type" ∉ (["x", "y"] : List String) :=
  c7_unknown_attr_reporting.2.1 (some xyxTree) true "feed" ["x", "y"]
    (show LogEvent.unhandledWarning "feed" ["x", "y"] ∈ (load_file (some xyxTree) true).logs
     from List.mem_cons_self _ _)

/-- The attribute names that can influence the walk or the record
contents: the xpath selector attributes `text` and `type` and the declared
fields of the three schemas. -/
def relevantKeys : List String :=
  "text" :: "type" :: (playlistFields ++ feedFields ++ episodeFields)

/-- `ExtraAttrs a b`: `b` is `a` with extra attribute entries interleaved
whose names are not relevant — not a schema field of any record and not
`text`/`type`. -/
inductive ExtraAttrs : AttrList → AttrList → Prop
| nil : ExtraAttrs [] []
| keep (p : String × Str) {a b : AttrList} : ExtraAttrs a b → ExtraAttrs (p :: a) (p :: b)
| extra (p : String × Str) {a b : AttrList} :
    p.1 ∉ relevantKeys → ExtraAttrs a b → ExtraAttrs a (p :: b)

mutual

/-- Two trees of the same shape whose nodes differ only by extra unknown
attributes. -/
inductive NodeExtra : OutlineNode → OutlineNode → Prop
| mk {a1 a2 : AttrList} {c1 c2 : List OutlineNode} :
    ExtraAttrs a1 a2 → NodesExtra c1 c2 → NodeExtra (OutlineNode.mk a1 c1) (OutlineNode.mk a2 c2)

/-- `NodeExtra`, pointwise over forests. -/
inductive NodesExtra : List OutlineNode → List OutlineNode → Prop
| nil : NodesExtra [] []
| cons {n1 n2 : OutlineNode} {l1 l2 : List OutlineNode} :
    NodeExtra n1 n2 → NodesExtra l1 l2 → NodesExtra (n1 :: l1) (n2 :: l2)

end

/-- Extra unknown attributes do not change the lookup of a relevant
name. -/
theorem lookupAttr_extra {a b : AttrList} (h : ExtraAttrs a b) :
    ∀ k, k ∈ relevantKeys → lookupAttr k b = lookupAttr k a := by
  induction h with
  | nil => intro k _; rfl
  | keep p h ih =>
    intro k hk
    rw [lookupAttr, lookupAttr]
    by_cases he : k = p.1
    · rw [if_pos he, if_pos he]
    · rw [if_neg he, if_neg he, ih k hk]
  | extra p hp h ih =>
    intro k hk
    have hne : k ≠ p.1 := fun he => hp (he ▸ hk)
    rw [lookupAttr, if_neg hne, ih k hk]

/-- `Feed` construction reads only relevant names. -/
theorem mkFeed_extra {a b : AttrList} (h : ExtraAttrs a b) : mkFeed b = mkFeed a := by
  have l := lookupAttr_extra h
  simp only [mkFeed, reqInt, reqStr, defBool,
    l "overcastId" (by decide), l "title" (by decide), l "subscribed" (by decide),
    l "episodes" (by decide), l "xmlUrl" (by decide), l "htmlUrl" (by decide)]

/-- `Episode` construction reads only relevant names. -/
theorem mkEpisode_extra {a b : AttrList} (h : ExtraAttrs a b) : mkEpisode b = mkEpisode a := by
  have l := lookupAttr_extra h
  simp only [mkEpisode, reqInt, reqStr, reqDate, optDate, defInt, defBool,
    l "overcastId" (by decide), l "pubDate" (by decide), l "title" (by decide),
    l "url" (by decide), l "enclosureUrl" (by decide), l "overcastUrl" (by decide),
    l "progress" (by decide), l "userUpdatedDate" (by decide),
    l "userDeleted" (by decide), l "played" (by decide),
    l "userRecommendedDate" (by decide)]

/-- `Playlist` coercion and construction read only relevant names. -/
theorem mkPlaylist_extra {a b : AttrList} (h : ExtraAttrs a b) :
    mkPlaylist b = mkPlaylist a := by
  have l := lookupAttr_extra h
  simp only [mkPlaylist, optIntList, reqStr, reqBool,
    l "includePodcastIds" (by decide), l "includeEpisodeIds" (by decide),
    l "sortedEpisodeIds" (by decide), l "title" (by decide), l "smart" (by decide),
    l "sorting" (by decide)]

/-- The xpath predicate agrees across extra unknown attributes for the
selector names. -/
theorem hasAttrVal_extra {a b : AttrList} (h : ExtraAttrs a b) (k : String) (v : Str)
    (hk : k ∈ relevantKeys) : hasAttrVal k v b = hasAttrVal k v a := by
  rw [hasAttrVal, hasAttrVal, lookupAttr_extra h k hk]

/-- Pointwise relation concatenates. -/
theorem nodesExtra_append : {a b c d : List OutlineNode} → NodesExtra a b →
    NodesExtra c d → NodesExtra (a ++ c) (b ++ d)
  | _, _, _, _, .nil, h2 => h2
  | _, _, _, _, .cons hn hl, h2 => .cons hn (nodesExtra_append hl h2)

mutual

/-- The xpath search returns pointwise related matches on related trees
(selector name relevant). -/
theorem findAllNode_extra (k : String) (v : Str) (hk : k ∈ relevantKeys) :
    ∀ {n1 n2 : OutlineNode}, NodeExtra n1 n2 →
      NodesExtra (findAllNode k v n1) (findAllNode k v n2)
  | .mk a1 c1, .mk a2 c2, .mk ha hc => by
    rw [findAllNode, findAllNode, hasAttrVal_extra ha k v hk]
    cases hb : hasAttrVal k v a1 with
    | true => exact nodesExtra_append (.cons (.mk ha hc) .nil) (findAllNodes_extra k v hk hc)
    | false => exact findAllNodes_extra k v hk hc

/-- `findAllNode_extra` over forests. -/
theorem findAllNodes_extra (k : String) (v : Str) (hk : k ∈ relevantKeys) :
    ∀ {l1 l2 : List OutlineNode}, NodesExtra l1 l2 →
      NodesExtra (findAllNodes k v l1) (findAllNodes k v l2)
  | _, _, .nil => .nil
  | _, _, .cons hn hl =>
    nodesExtra_append (findAllNode_extra k v hk hn) (findAllNodes_extra k v hk hl)

end

/-- A related pair of match lists starts the same way. -/
theorem nodesExtra_head {l1 l2 : List OutlineNode} (h : NodesExtra l1 l2) :
    (l1 = [] ∧ l2 = []) ∨
    (∃ x y xs ys, l1 = x :: xs ∧ l2 = y :: ys ∧ NodeExtra x y ∧ NodesExtra xs ys) := by
  cases h with
  | nil => exact .inl ⟨rfl, rfl⟩
  | cons hn hl => exact .inr ⟨_, _, _, _, rfl, rfl, hn, hl⟩

/-- Feed-loop states that agree on everything the outcome depends on; the
unknown-attribute accumulators are unconstrained. -/
def StRel (s t : FeedState) : Prop :=
  s.heap = t.heap ∧ s.refs = t.refs ∧ s.cur = t.cur ∧ s.logs = t.logs

/-- `StRel` lifted to loop results; uncaught errors agree on the
exception. -/
def RRel : Except (PyErr × FeedState) FeedState →
    Except (PyErr × FeedState) FeedState → Prop
| .ok s, .ok t => StRel s t
| .error (e1, s), .error (e2, t) => e1 = e2 ∧ StRel s t
| _, _ => False

/-- One episode iteration on related nodes and states yields related
results. -/
theorem episodeStep_rel (check : Bool) {n1 n2 : OutlineNode} {s t : FeedState}
    (hn : NodeExtra n1 n2) (hst : StRel s t) :
    RRel (episodeStep check s n1) (episodeStep check t n2) := by
  obtain ⟨sh, sr, sc, su1, su2, sl⟩ := s
  obtain ⟨th, tr, tc, tu1, tu2, tl⟩ := t
  obtain ⟨e1, e2, e3, e4⟩ := hst
  have e1b : sh = th := e1
  have e2b : sr = tr := e2
  have e3b : sc = tc := e3
  have e4b : sl = tl := e4
  subst e1b; subst e2b; subst e3b; subst e4b
  cases hn with
  | mk ha hc =>
    rw [episodeStep, episodeStep]
    simp only [OutlineNode.attrs]
    rw [mkEpisode_extra ha]
    cases hme : mkEpisode _ with
    | error e => exact ⟨rfl, rfl, rfl, rfl⟩
    | ok ep =>
      cases sc with
      | none => exact ⟨rfl, rfl, rfl, rfl, rfl⟩
      | some i => exact ⟨rfl, rfl, rfl, rfl⟩

/-- The episode loop on related node lists and states yields related
results. -/
theorem episodeLoop_rel (check : Bool) : ∀ {es1 es2 : List OutlineNode},
    NodesExtra es1 es2 → ∀ {s t : FeedState}, StRel s t →
    RRel (episodeLoop check s es1) (episodeLoop check t es2)
  | _, _, .nil, _, _, hst => hst
  | _, _, @NodesExtra.cons n1 n2 l1 l2 hn hl, s, t, hst => by
    rw [episodeLoop, episodeLoop]
    have h1 := episodeStep_rel check hn hst
    cases hr1 : episodeStep check s n1 with
    | error e1 =>
      rw [hr1] at h1
      cases hr2 : episodeStep check t n2 with
      | error e2 =>
        rw [hr2] at h1
        obtain ⟨p1, q1⟩ := e1
        obtain ⟨p2, q2⟩ := e2
        exact h1
      | ok t2 =>
        rw [hr2] at h1
        obtain ⟨p1, q1⟩ := e1
        exact h1.elim
    | ok s2 =>
      rw [hr1] at h1
      cases hr2 : episodeStep check t n2 with
      | error e2 =>
        rw [hr2] at h1
        obtain ⟨p2, q2⟩ := e2
        exact h1.elim
      | ok t2 =>
        rw [hr2] at h1
        exact episodeLoop_rel check hl h1

/-- The construction attempt on related nodes and states yields related
states. -/
theorem feedBegin_rel (check : Bool) {n1 n2 : OutlineNode} {s t : FeedState}
    (hn : NodeExtra n1 n2) (hst : StRel s t) :
    StRel (feedBegin check s n1) (feedBegin check t n2) := by
  obtain ⟨sh, sr, sc, su1, su2, sl⟩ := s
  obtain ⟨th, tr, tc, tu1, tu2, tl⟩ := t
  obtain ⟨e1, e2, e3, e4⟩ := hst
  have e1b : sh = th := e1
  have e2b : sr = tr := e2
  have e3b : sc = tc := e3
  have e4b : sl = tl := e4
  subst e1b; subst e2b; subst e3b; subst e4b
  cases hn with
  | mk ha hc =>
    rw [feedBegin, feedBegin]
    simp only [OutlineNode.attrs]
    rw [mkFeed_extra ha]
    cases hmf : mkFeed _ with
    | ok f => exact ⟨rfl, rfl, rfl, rfl⟩
    | error e => exact ⟨rfl, rfl, rfl, rfl⟩

/-- The trailing append on related results yields related results. -/
theorem feedFinish_rel {r1 r2 : Except (PyErr × FeedState) FeedState}
    (h : RRel r1 r2) : RRel (feedFinish r1) (feedFinish r2) := by
  cases r1 with
  | error e1 =>
    cases r2 with
    | error e2 =>
      obtain ⟨p1, q1⟩ := e1
      obtain ⟨p2, q2⟩ := e2
      exact h
    | ok t2 =>
      obtain ⟨p1, q1⟩ := e1
      exact h.elim
  | ok s2 =>
    cases r2 with
    | error e2 =>
      obtain ⟨p2, q2⟩ := e2
      exact h.elim
    | ok t2 =>
      obtain ⟨s2h, s2r, s2c, s2u1, s2u2, s2l⟩ := s2
      obtain ⟨t2h, t2r, t2c, t2u1, t2u2, t2l⟩ := t2
      obtain ⟨f1, f2, f3, f4⟩ := h
      have f1b : s2h = t2h := f1
      have f2b : s2r = t2r := f2
      have f3b : s2c = t2c := f3
      have f4b : s2l = t2l := f4
      subst f1b; subst f2b; subst f3b; subst f4b
      cases s2c with
      | none => exact ⟨rfl, rfl, rfl, rfl, rfl⟩
      | some i => exact ⟨rfl, rfl, rfl, rfl⟩

/-- One feed iteration on related nodes and states yields related
results. -/
theorem feedStep_rel (check : Bool) {n1 n2 : OutlineNode} {s t : FeedState}
    (hn : NodeExtra n1 n2) (hst : StRel s t) :
    RRel (feedStep check s n1) (feedStep check t n2) :=
  feedFinish_rel (episodeLoop_rel check
    (findAllNode_extra "type" (chars "podcast-episode") (by decide) hn)
    (feedBegin_rel check hn hst))


/-- The feed loop on related node lists and states yields related
results. -/
theorem feedLoop_rel (check : Bool) : ∀ {ns1 ns2 : List OutlineNode},
    NodesExtra ns1 ns2 → ∀ {s t : FeedState}, StRel s t →
    RRel (feedLoop check s ns1) (feedLoop check t ns2)
  | _, _, .nil, _, _, hst => hst
  | _, _, @NodesExtra.cons n1 n2 l1 l2 hn hl, s, t, hst => by
    rw [feedLoop, feedLoop]
    have h1 := feedStep_rel check hn hst
    cases hr1 : feedStep check s n1 with
    | error e1 =>
      rw [hr1] at h1
      cases hr2 : feedStep check t n2 with
      | error e2 =>
        rw [hr2] at h1
        obtain ⟨p1, q1⟩ := e1
        obtain ⟨p2, q2⟩ := e2
        exact h1
      | ok t2 =>
        rw [hr2] at h1
        obtain ⟨p1, q1⟩ := e1
        exact h1.elim
    | ok s2 =>
      rw [hr1] at h1
      cases hr2 : feedStep check t n2 with
      | error e2 =>
        rw [hr2] at h1
        obtain ⟨p2, q2⟩ := e2
        exact h1.elim
      | ok t2 =>
        rw [hr2] at h1
        exact feedLoop_rel check hl h1

/-- Playlist-loop results that agree on the built playlists; the
unknown-attribute accumulator is unconstrained. -/
def PRel : Except PyErr (List Playlist × List String) →
    Except PyErr (List Playlist × List String) → Prop
| .ok s, .ok t => s.1 = t.1
| .error e1, .error e2 => e1 = e2
| _, _ => False

/-- The playlist loop on related node lists yields related results. -/
theorem playlistLoop_rel (check : Bool) : ∀ {ns1 ns2 : List OutlineNode},
    NodesExtra ns1 ns2 → ∀ (s t : List Playlist × List String), s.1 = t.1 →
    PRel (playlistLoop check ns1 s) (playlistLoop check ns2 t)
  | _, _, .nil, s, t, hst => hst
  | _, _, @NodesExtra.cons n1 n2 l1 l2 hn hl, s, t, hst => by
    rw [playlistLoop, playlistLoop]
    cases hn with
    | mk ha hc =>
      rw [playlistStep, playlistStep]
      simp only [OutlineNode.attrs]
      rw [mkPlaylist_extra ha]
      cases hmp : mkPlaylist _ with
      | error e => exact rfl
      | ok p => exact playlistLoop_rel check hl _ _ (by rw [hst])

/-- Every attribute list is related to itself. -/
theorem extraAttrs_refl : ∀ a : AttrList, ExtraAttrs a a
  | [] => .nil
  | p :: rest => .keep p (extraAttrs_refl rest)

mutual

/-- Every tree is related to itself. -/
theorem nodeExtra_refl : ∀ n : OutlineNode, NodeExtra n n
  | .mk a cs => .mk (extraAttrs_refl a) (nodesExtra_refl cs)

/-- Every forest is related to itself. -/
theorem nodesExtra_refl : ∀ l : List OutlineNode, NodesExtra l l
  | [] => .nil
  | n :: ns => .cons (nodeExtra_refl n) (nodesExtra_refl ns)

end

/-- C8: unknown attributes never affect the outcome. For two parsed trees
of the same shape where the second only adds attributes whose names belong
to no record schema and are neither `text` nor `type`, `load_file` produces
the same outcome — the same returned aggregate, the same `sys.exit` code,
or the same uncaught exception. (Only the warning log lines may differ, and
unknown attributes never make a record's construction fail: the record
constructors read only schema fields.) -/
theorem c8_extra_attrs_same_outcome (t1 t2 : OutlineNode) (check : Bool)
    (h : NodeExtra t1 t2) :
    (load_file (some t1) check).outcome = (load_file (some t2) check).outcome := by
  rw [load_file, load_file]
  have hfp := findAllNode_extra "text" (chars "playlists") (by decide) h
  rcases nodesExtra_head hfp with ⟨hn1, hn2⟩ | ⟨P1, P2, ps1, ps2, hq1, hq2, hP, _⟩
  · simp only [findFirst, hn1, hn2, List.head?]
  · simp only [findFirst, hq1, hq2, List.head?]
    have hplnodes := findAllNode_extra "type" (chars "podcast-playlist") (by decide) hP
    have hpl := playlistLoop_rel check hplnodes ([], []) ([], []) rfl
    cases hr1 : playlistLoop check (findAllNode "type" (chars "podcast-playlist") P1)
        ([], []) with
    | error e1 =>
      rw [hr1] at hpl
      cases hr2 : playlistLoop check (findAllNode "type" (chars "podcast-playlist") P2)
          ([], []) with
      | error e2 =>
        rw [hr2] at hpl
        rw [hpl]
      | ok pst2 =>
        rw [hr2] at hpl
        exact hpl.elim
    | ok pst1 =>
      rw [hr1] at hpl
      cases hr2 : playlistLoop check (findAllNode "type" (chars "podcast-playlist") P2)
          ([], []) with
      | error e2 =>
        rw [hr2] at hpl
        exact hpl.elim
      | ok pst2 =>
        rw [hr2] at hpl
        have hff := findAllNode_extra "text" (chars "feeds") (by decide) h
        rcases nodesExtra_head hff with ⟨m1, m2⟩ | ⟨F1, F2, fs1, fs2, hw1, hw2, hF, _⟩
        · simp only [findFirst, m1, m2, List.head?]
        · simp only [findFirst, hw1, hw2, List.head?]
          have hfln := findAllNode_extra "type" (chars "rss") (by decide) hF
          have hfl := feedLoop_rel check hfln (s := initFeedState) (t := initFeedState)
            ⟨rfl, rfl, rfl, rfl⟩
          cases hr3 : feedLoop check initFeedState (findAllNode "type" (chars "rss") F1) with
          | error er1 =>
            rw [hr3] at hfl
            cases hr4 : feedLoop check initFeedState (findAllNode "type" (chars "rss") F2) with
            | error er2 =>
              rw [hr4] at hfl
              obtain ⟨p1, q1⟩ := er1
              obtain ⟨p2, q2⟩ := er2
              rw [hfl.1]
            | ok fst2 =>
              rw [hr4] at hfl
              obtain ⟨p1, q1⟩ := er1
              exact hfl.elim
          | ok fst1 =>
            rw [hr3] at hfl
            cases hr4 : feedLoop check initFeedState (findAllNode "type" (chars "rss") F2) with
            | error er2 =>
              rw [hr4] at hfl
              obtain ⟨p2, q2⟩ := er2
              exact hfl.elim
            | ok fst2 =>
              rw [hr4] at hfl
              show LoadOutcome.ok _ = LoadOutcome.ok _
              rw [hpl, hfl.1, hfl.2.1]

/-- `feedANode` with one extra unknown attribute `color` inserted. -/
def feedANodeExtra : OutlineNode :=
  .mk [("type", chars "rss"), ("color", chars "red"), ("overcastId", chars "1"),
       ("title", chars "A"), ("subscribed", chars "true")] [epNode "101"]

/-- C8 witness: the run on a one-feed document and on the same document
with the extra `color` attribute end identically. -/
theorem c8_extra_attrs_same_outcome_witness :
    (load_file (some (docTree [] [feedANode])) true).outcome =
      (load_file (some (docTree [] [feedANodeExtra])) true).outcome :=
  c8_extra_attrs_same_outcome (docTree [] [feedANode]) (docTree [] [feedANodeExtra]) true
    (.mk .nil (.cons (nodeExtra_refl (playlistsSection []))
      (.cons (.mk (extraAttrs_refl [("text", chars "feeds")])
        (.cons (.mk (.keep ("type", chars "rss")
            (.extra ("color", chars "red") (by decide)
              (extraAttrs_refl [("overcastId", chars "1"), ("title", chars "A"),
                ("subscribed", chars "true")])))
          (nodesExtra_refl [epNode "101"])) .nil)) .nil)))

/-- C9: the claim says a nonexistent path makes the entry point print a
message to the error stream and exit with status 0. The positional argument
is declared with the `File` parameter type, which opens the path during
argument parsing, so the conversion fails with a usage error first: a
message is printed to the error stream but the exit status is 2, and the
body's own exit-0 branch for a missing file is unreachable. -/
theorem c9_nonexistent_path_exits_2 :
    cli none = ⟨2, true⟩ ∧ (2 : Nat) ≠ 0 := by
  exact ⟨rfl, by decide⟩

end Overcast
